import Mathlib

/-!
Verification development for the Cloak Exchange subscription intake endpoint.

The embedded code comes from:
* `src/frontend/swap-component.tsx` — the `subscribers` Drizzle table
  (`id: serial`, `email: text notNull unique`, `createdAt: timestamp defaultNow`),
  the `insertSubscriberSchema` Zod schema
  (`createInsertSchema(subscribers).pick(email)`), and the `DatabaseStorage`
  repository (`getSubscriberByEmail`, `createSubscriber`).
* `src/architecture/app-structure.tsx` — the `POST /api/subscribers` Express
  handler inside `registerRoutes`, and the client-side `useCreateSubscriber`
  mutation that validates with the same shared schema.
* `src/backend/api-layer.ts` — the shared `api` contract and `buildUrl`.

Modelling conventions: the Postgres table is a `Store` (a list of rows plus the
`serial` sequence counter); timestamps are `Nat`; JSON request bodies are a
small `Json` inductive; the fallible insert returns `Except` so that the
column-level unique constraint (`.unique()` on `email`) is a distinguishable
error, as it is at runtime.
-/

namespace CloakEx

/-- JSON values, as delivered by `express.json()` to `req.body`. Numbers are
modelled as `Int`; no claim depends on fractional numerics. Objects are
association lists in key order; bodies produced by `JSON.parse` have distinct
keys (later duplicates overwrite earlier ones before the handler ever sees
the object). -/
inductive Json where
  | str (s : String)
  | num (n : Int)
  | bool (b : Bool)
  | null
  | obj (fields : List (String × Json))
  | arr (elems : List Json)

/-- A row of the `subscribers` table (`src/frontend/swap-component.tsx`,
lines 254–258): `id serial primaryKey`, `email text notNull unique`,
`createdAt timestamp defaultNow`. -/
structure Subscriber where
  id : Nat
  email : String
  createdAt : Nat
deriving DecidableEq

/-- The state of the `subscribers` table: its rows in insertion order and the
next value of the `id` serial sequence (Postgres serials start at 1). -/
structure Store where
  subs : List Subscriber
  nextId : Nat
deriving DecidableEq

/-- The empty database, before any subscription. -/
def Store.empty : Store := ⟨[], 1⟩

/-- One Zod issue: `err.errors[0]` as consumed by the route handler
(`message` and `path`). -/
structure ZodIssue where
  message : String
  path : List String
deriving DecidableEq

/-- The parsed input type `InsertSubscriber = z.infer<typeof
insertSubscriberSchema>`: after `.pick(email)` only the `email` field
remains. -/
structure InsertSubscriber where
  email : String
deriving DecidableEq

/-- Zod's name for a JSON value's type, used in its `invalid_type` message. -/
def zodTypeName : Json → String
  | .str _ => "string"
  | .num _ => "number"
  | .bool _ => "boolean"
  | .null => "null"
  | .obj _ => "object"
  | .arr _ => "array"

/-- First binding of `key` in an association list (JS property lookup; bodies
coming from `JSON.parse` have unique keys). -/
def lookupField : List (String × Json) → String → Option Json
  | [], _ => none
  | (k, v) :: rest, key => if k = key then some v else lookupField rest key

/-- The runtime behaviour of `insertSubscriberSchema.parse`
(`src/frontend/swap-component.tsx`, lines 264–266):
`createInsertSchema(subscribers).pick(email)` produces the Zod object
schema whose single field `email` is `z.string()` — drizzle-zod derives the
field validator from the column type (`text` → `z.string()`), and no
`.email()` refinement is attached anywhere in the source. A Zod object
schema in its default mode strips unknown keys rather than rejecting them.
On failure the result is `err.errors[0]` (the only issue the handler
reads). -/
def insertSubscriberSchemaParse (body : Json) : Except ZodIssue InsertSubscriber :=
  match body with
  | .obj fields =>
    match lookupField fields "email" with
    | some (.str s) => .ok ⟨s⟩
    | some v => .error ⟨"Expected string, received " ++ zodTypeName v, ["email"]⟩
    | none => .error ⟨"Required", ["email"]⟩
  | v => .error ⟨"Expected object, received " ++ zodTypeName v, []⟩

/-- Client-side validation step of `useCreateSubscriber`
(`src/architecture/app-structure.tsx`, line 252):
`api.subscribers.create.input.parse(data)`, where
`api.subscribers.create.input` is `insertSubscriberSchema`
(`src/backend/api-layer.ts`, line 55). -/
def clientValidate (data : Json) : Except ZodIssue InsertSubscriber :=
  insertSubscriberSchemaParse data

/-- Server-side validation step of the `POST /api/subscribers` handler
(`src/architecture/app-structure.tsx`, line 379):
`api.subscribers.create.input.parse(req.body)`, with the same shared
`insertSubscriberSchema` (`src/backend/api-layer.ts`, line 55). -/
def serverValidate (body : Json) : Except ZodIssue InsertSubscriber :=
  insertSubscriberSchemaParse body

/-- Boolean acceptance of a validator outcome (did `parse` succeed?). -/
def accepted (r : Except ZodIssue InsertSubscriber) : Bool :=
  match r with
  | .ok _ => true
  | .error _ => false

/-- First row whose `email` column equals `e` (the Drizzle
`select().from(subscribers).where(eq(subscribers.email, email))` query
destructured to its first row). -/
def findByEmailL : List Subscriber → String → Option Subscriber
  | [], _ => none
  | s :: rest, e => if s.email = e then some s else findByEmailL rest e

/-- The error a rejected insert raises. The `subscribers.email` column carries
a unique constraint (`.unique()`, `src/frontend/swap-component.tsx`,
line 256), so a duplicate insert fails with a uniqueness violation. It is a
database error, not a `ZodError`. -/
inductive DbError where
  | uniqueViolation
deriving DecidableEq

/-- The storage method `DatabaseStorage.getSubscriberByEmail`
(`src/frontend/swap-component.tsx`, lines 309–316). -/
def getSubscriberByEmail (st : Store) (email : String) : Option Subscriber :=
  findByEmailL st.subs email

/-- The storage method `DatabaseStorage.createSubscriber`
(`src/frontend/swap-component.tsx`, lines 324–332) together with the
database behaviour it triggers: inserting a row whose `email` collides with
an existing row violates the column's unique constraint and the insert is
rejected; otherwise the row is appended with the next serial `id` and
`createdAt` defaulted to the current time. -/
def createSubscriber (st : Store) (email : String) (now : Nat) :
    Except DbError (Subscriber × Store) :=
  match findByEmailL st.subs email with
  | some _ => .error .uniqueViolation
  | none =>
    let sub : Subscriber := ⟨st.nextId, email, now⟩
    .ok (sub, ⟨st.subs ++ [sub], st.nextId + 1⟩)

/-- Outcome of one `POST /api/subscribers` request, as the transport layer
sees it. `internalError` is the outcome of the handler's final `throw err`
(`src/architecture/app-structure.tsx`, line 405): a non-Zod error is
re-thrown to the Express error middleware, which answers 500. -/
inductive Response where
  | created (sub : Subscriber)
  | validationFailed (message : String) (fieldName : String)
  | conflict (message : String)
  | internalError
deriving DecidableEq

/-- HTTP status code sent for each outcome (handler lines 384, 393, 398, and
the 500 error middleware). -/
def Response.status : Response → Nat
  | .created _ => 201
  | .validationFailed _ _ => 400
  | .conflict _ => 409
  | .internalError => 500

/-- The `POST /api/subscribers` handler (`src/architecture/app-structure.tsx`,
lines 375–407), with its two `await`s on the shared database made explicit:
`lookupSt` is the table state observed by `storage.getSubscriberByEmail`,
and `insertSt` the state at `storage.createSubscriber`. In an uninterleaved
run the two coincide (`postSubscribers` below); they differ when the Node
event loop schedules another request's insert between the handler's two
awaits. Steps: parse the body with the shared schema (a `ZodError` becomes
a 400 with `errors[0].message` and `errors[0].path.join`-ed field); answer
409 `"Email already subscribed"` when the lookup hits; otherwise insert.
The `catch` only recognises `ZodError`, so a rejected insert (including a
uniqueness violation) is re-thrown and surfaces as `internalError`. The
returned `Store` is the table state after the request (unchanged on every
non-insert path). -/
def postSubscribersRaced (body : Json) (lookupSt insertSt : Store) (now : Nat) :
    Response × Store :=
  match insertSubscriberSchemaParse body with
  | .error issue =>
    (.validationFailed issue.message (String.intercalate "." issue.path), insertSt)
  | .ok input =>
    match getSubscriberByEmail lookupSt input.email with
    | some _ => (.conflict "Email already subscribed", insertSt)
    | none =>
      match createSubscriber insertSt input.email now with
      | .ok r => (.created r.1, r.2)
      | .error _ => (.internalError, insertSt)

/-- The handler in an uninterleaved (sequential) run: both awaits observe the
same table state. -/
def postSubscribers (st : Store) (body : Json) (now : Nat) : Response × Store :=
  postSubscribersRaced body st st now

/-- A sequence of sequential `POST /api/subscribers` requests, each a body and
the server time at which it runs; returns the final table state. -/
def runSeq (st : Store) (reqs : List (Json × Nat)) : Store :=
  match reqs with
  | [] => st
  | r :: rest => runSeq (postSubscribers st r.1 r.2).2 rest

/-- Two requests issued concurrently, under the racy schedule in which both
lookups run before either insert: lookup₁, lookup₂, insert₁, insert₂.
Request 1 sees the initial state at both awaits; request 2 looks up in the
initial state but inserts into the state request 1 left behind. -/
def twoConcurrent (st : Store) (b1 b2 : Json) (n1 n2 : Nat) :
    Response × Response × Store :=
  let r1 := postSubscribersRaced b1 st st n1
  let r2 := postSubscribersRaced b2 st r1.2 n2
  (r1.1, r2.1, r2.2)

/-- A request body carrying exactly one field, `email`. -/
def emailBody (e : String) : Json := Json.obj [("email", Json.str e)]

/-- Emails stored in the table are pairwise distinct (the unique-constraint
invariant of §3 of the specification). -/
def emailsNodup (st : Store) : Prop :=
  (st.subs.map Subscriber.email).Nodup

/-- Does `pat` occur at the start of `s`? (Code-unit-level prefix test.) -/
def startsWithL : List Char → List Char → Bool
  | _, [] => true
  | [], _ :: _ => false
  | c :: s1, p :: p1 => if c = p then startsWithL s1 p1 else false

/-- JS `String.prototype.includes`: does `pat` occur anywhere in `s`? -/
def containsL : List Char → List Char → Bool
  | [], pat => startsWithL [] pat
  | s@(_ :: rest), pat => startsWithL s pat || containsL rest pat

/-- JS `String.prototype.replace` with a string pattern: replace only the
first (leftmost) occurrence of `pat` in `s` by `rep`; return `s` unchanged
when `pat` does not occur. Dollar-sequence expansion in the replacement
string is not modelled; no value in any claim contains a dollar sign. -/
def replaceFirstL (s pat rep : List Char) : List Char :=
  match s with
  | [] => if startsWithL [] pat then rep else []
  | c :: rest =>
    if startsWithL (c :: rest) pat then rep ++ (c :: rest).drop pat.length
    else c :: replaceFirstL rest pat rep

/-- String wrapper of `containsL`. -/
def stringIncludes (s pat : String) : Bool := containsL s.data pat.data

/-- String wrapper of `replaceFirstL`. -/
def stringReplaceFirst (s pat rep : String) : String :=
  ⟨replaceFirstL s.data pat.data rep.data⟩

/-- One iteration of the `Object.entries(params).forEach` loop in `buildUrl`
(`src/backend/api-layer.ts`, lines 91–95): if `:key` occurs in the current
`url`, replace its first occurrence with the value; otherwise leave `url`
unchanged. Values appear already in their `String(value)` form. -/
def buildUrlStep (url : String) (kv : String × String) : String :=
  if stringIncludes url (":" ++ kv.1) then
    stringReplaceFirst url (":" ++ kv.1) kv.2
  else url

/-- The `buildUrl` utility (`src/backend/api-layer.ts`, lines 88–98). `params`
is the entry list of the record in `Object.entries` order; `none` models an
omitted argument. -/
def buildUrl (path : String) (params : Option (List (String × String))) : String :=
  match params with
  | none => path
  | some ps => ps.foldl buildUrlStep path

end CloakEx

namespace CloakEx

/-- Technical lemma: the lookup misses exactly when no stored row carries the
email. -/
theorem findByEmailL_eq_none_iff (l : List Subscriber) (e : String) :
    findByEmailL l e = none ↔ e ∉ l.map Subscriber.email := by
  induction l with
  | nil => simp [findByEmailL]
  | cons a l ih =>
    by_cases hc : a.email = e
    · simp [findByEmailL, hc]
    · rw [show findByEmailL (a :: l) e = findByEmailL l e by simp [findByEmailL, hc], ih]
      simp only [List.map_cons, List.mem_cons]
      constructor
      · intro h hor
        rcases hor with h1 | h2
        · exact hc h1.symm
        · exact h h2
      · intro h h2
        exact h (Or.inr h2)

/-- Technical lemma: looking up in a table extended by one appended row. -/
theorem findByEmailL_append_single (l : List Subscriber) (s : Subscriber) (e : String) :
    findByEmailL (l ++ [s]) e =
      match findByEmailL l e with
      | some x => some x
      | none => if s.email = e then some s else none := by
  induction l with
  | nil => simp [findByEmailL]
  | cons a l ih =>
    by_cases hc : a.email = e <;> simp [findByEmailL, hc, ih]

/-- Characterisation of a successful insert: it happens only on a fresh email,
assigns the next serial id and the current time, and appends the row. -/
theorem createSubscriber_ok (st : Store) (e : String) (n : Nat) (r : Subscriber × Store)
    (h : createSubscriber st e n = .ok r) :
    findByEmailL st.subs e = none ∧
    r = (⟨st.nextId, e, n⟩, ⟨st.subs ++ [⟨st.nextId, e, n⟩], st.nextId + 1⟩) := by
  unfold createSubscriber at h
  cases hf : findByEmailL st.subs e <;> rw [hf] at h
  · simp at h
    exact ⟨rfl, h.symm⟩
  · simp at h

/-- Behaviour of a sequential request whose body is a single `email` string:
409 leaving the table untouched when the email is present, otherwise 201
with the appended row. -/
theorem postSubscribers_emailBody (st : Store) (e : String) (n : Nat) :
    postSubscribers st (emailBody e) n =
      match findByEmailL st.subs e with
      | some _ => (Response.conflict "Email already subscribed", st)
      | none => (Response.created ⟨st.nextId, e, n⟩,
                 ⟨st.subs ++ [⟨st.nextId, e, n⟩], st.nextId + 1⟩) := by
  have hp : insertSubscriberSchemaParse (emailBody e) = .ok ⟨e⟩ := rfl
  cases hf : findByEmailL st.subs e <;>
    simp [postSubscribers, postSubscribersRaced, hp, getSubscriberByEmail,
      createSubscriber, hf]

/-- Every request leaves the table unchanged or appends exactly one row. -/
theorem postSubscribersRaced_store (b : Json) (ls st2 : Store) (n : Nat) :
    (postSubscribersRaced b ls st2 n).2 = st2 ∨
      ∃ sub, (postSubscribersRaced b ls st2 n).2 = ⟨st2.subs ++ [sub], st2.nextId + 1⟩ := by
  unfold postSubscribersRaced
  cases hp : insertSubscriberSchemaParse b with
  | error issue => left; rfl
  | ok input =>
    cases hf : getSubscriberByEmail ls input.email with
    | some s => left; simp [hf]
    | none =>
      cases hc : createSubscriber st2 input.email n with
      | error er => left; simp [hf, hc]
      | ok r =>
        right
        obtain ⟨-, hr⟩ := createSubscriber_ok st2 input.email n r hc
        exact ⟨⟨st2.nextId, input.email, n⟩, by simp [hf, hc, hr]⟩

/-- Stored emails are never removed by a request (there is no delete or update
operation). -/
theorem mem_emails_postSubscribersRaced (b : Json) (ls st2 : Store) (n : Nat) (e : String)
    (h : e ∈ st2.subs.map Subscriber.email) :
    e ∈ (postSubscribersRaced b ls st2 n).2.subs.map Subscriber.email := by
  rcases postSubscribersRaced_store b ls st2 n with h2 | ⟨sub, h2⟩ <;> rw [h2] <;>
    simp_all [List.mem_append]

/-- Appending a fresh element keeps a list duplicate-free. -/
theorem nodup_append_single {α : Type} (l : List α) (a : α)
    (h : l.Nodup) (ha : a ∉ l) : (l ++ [a]).Nodup := by
  refine List.nodup_append.mpr ⟨h, by simp, ?_⟩
  intro x hx hxa
  simp at hxa
  exact ha (hxa ▸ hx)

/-- The unique constraint in `createSubscriber` preserves distinctness of the
stored emails through any single request, even one whose lookup raced. -/
theorem emailsNodup_postSubscribersRaced (b : Json) (ls st2 : Store) (n : Nat)
    (h : emailsNodup st2) : emailsNodup (postSubscribersRaced b ls st2 n).2 := by
  unfold postSubscribersRaced
  cases hp : insertSubscriberSchemaParse b with
  | error issue => simpa using h
  | ok input =>
    cases hf : getSubscriberByEmail ls input.email with
    | some s => simpa [hf] using h
    | none =>
      cases hc : createSubscriber st2 input.email n with
      | error er => simpa [hf, hc] using h
      | ok r =>
        obtain ⟨hnone, hr⟩ := createSubscriber_ok st2 input.email n r hc
        have hmem : input.email ∉ st2.subs.map Subscriber.email :=
          (findByEmailL_eq_none_iff _ _).mp hnone
        simp only [hf, hc, hr, emailsNodup, List.map_append]
        exact nodup_append_single _ _ h hmem

/-- Stored emails survive any further sequence of sequential requests. -/
theorem mem_emails_runSeq (reqs : List (Json × Nat)) (st : Store) (e : String)
    (h : e ∈ st.subs.map Subscriber.email) :
    e ∈ (runSeq st reqs).subs.map Subscriber.email := by
  induction reqs generalizing st with
  | nil => simpa [runSeq] using h
  | cons r rest ih =>
    simpa [runSeq] using ih _ (mem_emails_postSubscribersRaced r.1 st st r.2 e h)

/-- Binding of `email` in a body whose leading fields are not named `email`. -/
theorem lookupField_skip (pre rest : List (String × Json))
    (h : ∀ p ∈ pre, p.1 ≠ "email") :
    lookupField (pre ++ rest) "email" = lookupField rest "email" := by
  induction pre with
  | nil => rfl
  | cons a l ih =>
    cases a with
    | mk k v =>
      have hk : k ≠ "email" := by simpa using h (k, v) (by simp)
      rw [List.cons_append]
      rw [show lookupField ((k, v) :: (l ++ rest)) "email" = lookupField (l ++ rest) "email"
        by simp [lookupField, hk]]
      exact ih (fun p hp => h p (by simp [hp]))

end CloakEx

namespace CloakEx

/-- C3: for every subscribe call with a valid email whose record already
exists, the handler answers `ConflictError` (HTTP 409) with body message
exactly `"Email already subscribed"`, creates no new record, and leaves the
table state unchanged. -/
theorem subscribeExistingEmailConflict (st : Store) (e : String) (now : Nat)
    (sub : Subscriber) (h : getSubscriberByEmail st e = some sub) :
    (postSubscribers st (emailBody e) now).1 = Response.conflict "Email already subscribed" ∧
    (postSubscribers st (emailBody e) now).1.status = 409 ∧
    (postSubscribers st (emailBody e) now).2 = st := by
  have hb := postSubscribers_emailBody st e now
  unfold getSubscriberByEmail at h
  rw [h] at hb
  exact ⟨by rw [hb], by rw [hb]; rfl, by rw [hb]⟩

/-- Witness for C3 at a concrete table containing `a@example.com`. -/
theorem subscribeExistingEmailConflictWitness :
    (postSubscribers ⟨[⟨1, "a@example.com", 0⟩], 2⟩ (emailBody "a@example.com") 5).1
      = Response.conflict "Email already subscribed" ∧
    (postSubscribers ⟨[⟨1, "a@example.com", 0⟩], 2⟩ (emailBody "a@example.com") 5).2
      = ⟨[⟨1, "a@example.com", 0⟩], 2⟩ :=
  ⟨(subscribeExistingEmailConflict ⟨[⟨1, "a@example.com", 0⟩], 2⟩ "a@example.com" 5
      ⟨1, "a@example.com", 0⟩ (by decide)).1,
   (subscribeExistingEmailConflict ⟨[⟨1, "a@example.com", 0⟩], 2⟩ "a@example.com" 5
      ⟨1, "a@example.com", 0⟩ (by decide)).2.2⟩

/-- C4: for any email `e` absent from the table, the first subscribe succeeds
with HTTP 201 and a body carrying the freshly generated serial id, the
email `e` and the creation time; and every subsequent subscribe call with
the same `e` — after arbitrarily many further subscribe requests of any
kind — answers `ConflictError`. -/
theorem subscribeFirstCreatedThenConflict (st : Store) (e : String) (now : Nat)
    (h : getSubscriberByEmail st e = none) :
    (postSubscribers st (emailBody e) now).1 = Response.created ⟨st.nextId, e, now⟩ ∧
    (postSubscribers st (emailBody e) now).1.status = 201 ∧
    ∀ (later : List (Json × Nat)) (n2 : Nat),
      (postSubscribers (runSeq (postSubscribers st (emailBody e) now).2 later)
        (emailBody e) n2).1 = Response.conflict "Email already subscribed" := by
  have hb := postSubscribers_emailBody st e now
  unfold getSubscriberByEmail at h
  rw [h] at hb
  refine ⟨by rw [hb], by rw [hb]; rfl, ?_⟩
  intro later n2
  have hmem : e ∈ (postSubscribers st (emailBody e) now).2.subs.map Subscriber.email := by
    rw [hb]; simp
  have hmem2 := mem_emails_runSeq later _ e hmem
  have hb2 := postSubscribers_emailBody
    (runSeq (postSubscribers st (emailBody e) now).2 later) e n2
  cases hff : findByEmailL (runSeq (postSubscribers st (emailBody e) now).2 later).subs e with
  | none => exact absurd hmem2 ((findByEmailL_eq_none_iff _ _).mp hff)
  | some x =>
    rw [hff] at hb2
    rw [hb2]

/-- Witness for C4: from the empty table, the first call with
`a@example.com` is 201 and a repeat after one more duplicate attempt is
still 409. -/
theorem subscribeFirstCreatedThenConflictWitness :
    (postSubscribers Store.empty (emailBody "a@example.com") 0).1
      = Response.created ⟨1, "a@example.com", 0⟩ ∧
    (postSubscribers (runSeq (postSubscribers Store.empty (emailBody "a@example.com") 0).2
        [(emailBody "a@example.com", 1)]) (emailBody "a@example.com") 2).1
      = Response.conflict "Email already subscribed" :=
  ⟨(subscribeFirstCreatedThenConflict Store.empty "a@example.com" 0 (by decide)).1,
   (subscribeFirstCreatedThenConflict Store.empty "a@example.com" 0 (by decide)).2.2
      [(emailBody "a@example.com", 1)] 2⟩

/-- C5: in every table state reachable by a sequence of subscribe operations
from the empty store, no two stored records share an email; moreover any
single request — whatever its outcome, and even when its lookup raced
against another request — preserves the distinct-emails invariant of the
table it writes to. -/
theorem subscribeUniqueEmailInvariant :
    (∀ reqs : List (Json × Nat), emailsNodup (runSeq Store.empty reqs)) ∧
    (∀ (b : Json) (lookupSt insertSt : Store) (n : Nat),
      emailsNodup insertSt → emailsNodup (postSubscribersRaced b lookupSt insertSt n).2) := by
  constructor
  · have key : ∀ (reqs : List (Json × Nat)) (st : Store),
        emailsNodup st → emailsNodup (runSeq st reqs) := by
      intro reqs
      induction reqs with
      | nil => intro st h; simpa [runSeq] using h
      | cons r rest ih =>
        intro st h
        simpa [runSeq] using ih _ (emailsNodup_postSubscribersRaced r.1 st st r.2 h)
    intro reqs
    exact key reqs Store.empty (by simp [emailsNodup, Store.empty])
  · exact emailsNodup_postSubscribersRaced

/-- Witness for C5 at a concrete duplicate-submission sequence and a concrete
raced request. -/
theorem subscribeUniqueEmailInvariantWitness :
    emailsNodup (runSeq Store.empty
      [(emailBody "a@example.com", 0), (emailBody "a@example.com", 1)]) ∧
    emailsNodup (postSubscribersRaced (emailBody "b@example.com")
      Store.empty Store.empty 0).2 :=
  ⟨subscribeUniqueEmailInvariant.1 [(emailBody "a@example.com", 0), (emailBody "a@example.com", 1)],
   subscribeUniqueEmailInvariant.2 (emailBody "b@example.com") Store.empty Store.empty 0
     (by simp [emailsNodup, Store.empty])⟩

/-- C7: for distinct emails `e1 ≠ e2` both absent from the table, subscribing
`e1` and then `e2` both succeed with `Created`, and the two created records
carry distinct serial ids. -/
theorem distinctEmailsDistinctIds (st : Store) (e1 e2 : String) (n1 n2 : Nat)
    (hne : e1 ≠ e2) (h1 : getSubscriberByEmail st e1 = none)
    (h2 : getSubscriberByEmail st e2 = none) :
    (postSubscribers st (emailBody e1) n1).1 = Response.created ⟨st.nextId, e1, n1⟩ ∧
    (postSubscribers (postSubscribers st (emailBody e1) n1).2 (emailBody e2) n2).1
      = Response.created ⟨st.nextId + 1, e2, n2⟩ ∧
    st.nextId ≠ st.nextId + 1 := by
  have hb1 := postSubscribers_emailBody st e1 n1
  unfold getSubscriberByEmail at h1 h2
  rw [h1] at hb1
  refine ⟨by rw [hb1], ?_, by omega⟩
  have hf2 : findByEmailL (postSubscribers st (emailBody e1) n1).2.subs e2 = none := by
    rw [hb1]
    rw [findByEmailL_append_single, h2]
    simp [hne]
  have hb2 := postSubscribers_emailBody (postSubscribers st (emailBody e1) n1).2 e2 n2
  rw [hf2] at hb2
  rw [hb2, show (postSubscribers st (emailBody e1) n1).2.nextId = st.nextId + 1 by rw [hb1]]

/-- Witness for C7 with two concrete distinct emails from the empty table. -/
theorem distinctEmailsDistinctIdsWitness :
    (postSubscribers Store.empty (emailBody "a@example.com") 0).1
      = Response.created ⟨1, "a@example.com", 0⟩ ∧
    (postSubscribers (postSubscribers Store.empty (emailBody "a@example.com") 0).2
        (emailBody "b@example.com") 1).1 = Response.created ⟨2, "b@example.com", 1⟩ ∧
    (1 : Nat) ≠ 2 :=
  ⟨(distinctEmailsDistinctIds Store.empty "a@example.com" "b@example.com" 0 1
      (by decide) (by decide) (by decide)).1,
   (distinctEmailsDistinctIds Store.empty "a@example.com" "b@example.com" 0 1
      (by decide) (by decide) (by decide)).2.1,
   (distinctEmailsDistinctIds Store.empty "a@example.com" "b@example.com" 0 1
      (by decide) (by decide) (by decide)).2.2⟩

/-- C8: the client-side validator applied in `useCreateSubscriber` before
sending the request and the server-side validator applied in the
`POST /api/subscribers` handler are the same function — both parse with
`api.subscribers.create.input` — so on every input object the two sides
produce identical parse results and accept exactly the same inputs. -/
theorem clientServerValidatorsAgree :
    ∀ body : Json, clientValidate body = serverValidate body ∧
      accepted (clientValidate body) = accepted (serverValidate body) :=
  fun _ => ⟨rfl, rfl⟩

/-- C9: a request body containing a valid `email` field among arbitrary other
fields parses to the same stripped input as the body with `email` alone,
and drives the handler to exactly the same response and table state. -/
theorem extraFieldsStripped (e : String) (pre post : List (String × Json))
    (st : Store) (n : Nat) (h : ∀ p ∈ pre, p.1 ≠ "email") :
    insertSubscriberSchemaParse (Json.obj (pre ++ ("email", Json.str e) :: post)) =
      .ok ⟨e⟩ ∧
    postSubscribers st (Json.obj (pre ++ ("email", Json.str e) :: post)) n =
      postSubscribers st (emailBody e) n := by
  have hl : lookupField (pre ++ ("email", Json.str e) :: post) "email"
      = some (Json.str e) := by
    rw [lookupField_skip pre _ h]
    simp [lookupField]
  have hp : insertSubscriberSchemaParse (Json.obj (pre ++ ("email", Json.str e) :: post))
      = .ok ⟨e⟩ := by
    simp [insertSubscriberSchemaParse, hl]
  refine ⟨hp, ?_⟩
  have hp2 : insertSubscriberSchemaParse (emailBody e) = .ok ⟨e⟩ := rfl
  unfold postSubscribers postSubscribersRaced
  rw [hp, hp2]

/-- Witness for C9 with a concrete body carrying `name` and `age` fields
around the email. -/
theorem extraFieldsStrippedWitness :
    insertSubscriberSchemaParse (Json.obj [("name", Json.str "bob"),
      ("email", Json.str "a@example.com"), ("age", Json.num 3)])
      = .ok ⟨"a@example.com"⟩ ∧
    postSubscribers Store.empty (Json.obj [("name", Json.str "bob"),
      ("email", Json.str "a@example.com"), ("age", Json.num 3)]) 0
      = postSubscribers Store.empty (emailBody "a@example.com") 0 :=
  extraFieldsStripped "a@example.com" [("name", Json.str "bob")] [("age", Json.num 3)]
    Store.empty 0 (by decide)

end CloakEx

namespace CloakEx

/-- C1 (evaluated at the claim's scenario): a subscribe call whose
duplicate-email lookup misses but whose insert is then rejected by the
database with a uniqueness-constraint violation — here, the lookup observes
the empty table while `a@example.com` is inserted by another request before
the write — ends in `internalError` (HTTP 500), not in the 409
`ConflictError` the claim requires: the handler's `catch` recognises only
`ZodError` and re-throws the database error. -/
theorem writeTimeUniqueViolationYieldsInternalError :
    getSubscriberByEmail Store.empty "a@example.com" = none ∧
    createSubscriber ⟨[⟨1, "a@example.com", 0⟩], 2⟩ "a@example.com" 1
      = .error .uniqueViolation ∧
    (postSubscribersRaced (emailBody "a@example.com") Store.empty
      ⟨[⟨1, "a@example.com", 0⟩], 2⟩ 1).1 = Response.internalError ∧
    Response.internalError.status = 500 ∧
    Response.internalError ≠ Response.conflict "Email already subscribed" := by
  refine ⟨rfl, rfl, by decide, rfl, by decide⟩

/-- C2 (evaluated at the claim's scenario): the body whose email string
`"not-an-email"` fails any email-format rule is accepted by the shared
schema — `createInsertSchema(subscribers).pick(email)` checks only that
`email` is a string — so the handler persists the record and answers 201
instead of the 400 `ValidationError` the claim requires. -/
theorem invalidEmailFormatAccepted :
    insertSubscriberSchemaParse (emailBody "not-an-email") = .ok ⟨"not-an-email"⟩ ∧
    postSubscribers Store.empty (emailBody "not-an-email") 0 =
      (Response.created ⟨1, "not-an-email", 0⟩, ⟨[⟨1, "not-an-email", 0⟩], 2⟩) :=
  ⟨rfl, by decide⟩

/-- C6 (evaluated at the claim's scenario): two concurrent subscribe calls
with the same fresh email, interleaved as lookup-lookup-insert-insert,
produce one `Created` and one `internalError` (HTTP 500) — not the
`ConflictError` the claim requires for the loser — although exactly one
record with that email is stored afterwards. -/
theorem concurrentDuplicateYieldsInternalError :
    twoConcurrent Store.empty (emailBody "e@x.com") (emailBody "e@x.com") 0 0 =
      (Response.created ⟨1, "e@x.com", 0⟩, Response.internalError,
        ⟨[⟨1, "e@x.com", 0⟩], 2⟩) ∧
    Response.internalError ≠ Response.conflict "Email already subscribed" ∧
    Response.internalError.status = 500 := by
  decide

/-- C10 counterexample: for path `"/:a"` and params `a ↦ ":b"`, `b ↦ "x"`
the claim prescribes the result `"/:b"` — the only placeholder occurring in
the path is `":a"`, and the key `b` must be skipped since `":b"` does not
occur in the path — but `buildUrl` returns `"/x"`, because its
second iteration tests and replaces on the already-substituted url rather
than on the path. -/
theorem buildUrlClaimCounterexample :
    buildUrl "/:a" (some [("a", ":b"), ("b", "x")]) = "/x" ∧
    stringIncludes "/:a" ":b" = false ∧
    stringReplaceFirst "/:a" ":a" ":b" = "/:b" ∧
    ("/x" : String) ≠ "/:b" := by
  decide

/-- C10 (amended): `buildUrl` processes the params entries in order against
the evolving url — each step replaces only the first occurrence of `:key`
in the current, partially substituted url with the value, and skips a key
whose placeholder is absent from that url — and when params is omitted, or
when no key's placeholder occurs in the path, the path is returned
unchanged. -/
theorem buildUrlProcessesEvolvingUrl (path : String) (ps : List (String × String)) :
    buildUrl path none = path ∧
    buildUrl path (some ps) = ps.foldl buildUrlStep path ∧
    ((∀ p ∈ ps, stringIncludes path (":" ++ p.1) = false) →
      buildUrl path (some ps) = path) := by
  refine ⟨rfl, rfl, ?_⟩
  intro h
  have aux : ∀ (l : List (String × String)),
      (∀ p ∈ l, stringIncludes path (":" ++ p.1) = false) →
      l.foldl buildUrlStep path = path := by
    intro l
    induction l with
    | nil => intro _; rfl
    | cons kv rest ih =>
      intro hl
      have hkv := hl kv (by simp)
      have hstep : buildUrlStep path kv = path := by simp [buildUrlStep, hkv]
      rw [List.foldl_cons, hstep]
      exact ih (fun p hp => hl p (by simp [hp]))
  exact aux ps h

/-- Witness for the amended C10 at concrete paths and params. -/
theorem buildUrlProcessesEvolvingUrlWitness :
    buildUrl "/api/subscribers" none = "/api/subscribers" ∧
    buildUrl "/api/users/:id" (some [("id", "123")])
      = [("id", "123")].foldl buildUrlStep "/api/users/:id" ∧
    buildUrl "/api/subscribers" (some [("id", "123")]) = "/api/subscribers" :=
  ⟨(buildUrlProcessesEvolvingUrl "/api/subscribers" []).1,
   (buildUrlProcessesEvolvingUrl "/api/users/:id" [("id", "123")]).2.1,
   (buildUrlProcessesEvolvingUrl "/api/subscribers" [("id", "123")]).2.2 (by decide)⟩

end CloakEx
